import Mathlib

/-!
A verification development for the consensus core of gymxdb: the Raft
candidate role state machine (`src/raft/node/candidate.rs`) and the ordered
key/value storage abstraction (`src/storage/mod.rs`).

The candidate's `step`, `become_follower` and `become_leader` are translated
from the source. The surrounding node context (`RoleNode`, `validate`,
`become_role`, `abort_proxied`, `forward_queued`, `send`, `append`,
`quorum`) and the Follower/Leader step bodies are declared or called by the
source but their code is not in the excerpt; they are modelled from the
spec, and each such definition says so in its doc comment. Side effects
(network sends, durable term writes, log appends, request
aborts/forwards) are recorded in an ordered effect trace carried by the
node, so that claims about the order of effects can be stated.
-/

namespace Gymxdb

variable {R S : Type}

/-- Message/sender address. Variants per the spec: `Local` (internal
client-loop), `Client` (external caller), `Peer(id)`, `Peers` (broadcast). -/
inductive Address where
  | Local : Address
  | Client : Address
  | Peer (id : String) : Address
  | Peers : Address
deriving DecidableEq, Repr

/-- A log entry: a term and an opaque command payload (bytes), the command
absent for a no-op entry. -/
structure Entry where
  term : Nat
  command : Option (List Nat)
deriving DecidableEq, Repr

/-- Protocol event. Variants and fields per the spec's external interface
section. -/
inductive Event where
  | SolicitVote (last_log_index last_log_term : Nat) : Event
  | GrantVote : Event
  | Heartbeat (commit_index commit_term : Nat) : Event
  | ReplicateEntries (base_index base_term : Nat) (entries : List Entry) : Event
  | AcceptEntries (last_index : Nat) : Event
  | RejectEntries : Event
deriving DecidableEq, Repr

/-- A message: term, source and destination address, and an event
(field names `src_addr`/`dst_addr` as in the source). -/
structure Message where
  term : Nat
  src_addr : Address
  dst_addr : Address
  event : Event
deriving DecidableEq, Repr

/-- The durable log state the candidate code touches: entry sequence,
`last_index`, `commit_index`, `commit_term`, and the persisted term and
vote record written by `save_term`. -/
structure Log where
  entries : List Entry
  last_index : Nat
  commit_index : Nat
  commit_term : Nat
  term : Nat
  voted_for : Option String
deriving DecidableEq, Repr

/-- Modelled from the spec: `Log::save_term` persists the current term and
(if voting) the chosen candidate; its code is not under src/. -/
def Log.save_term (l : Log) (term : Nat) (voted_for : Option String) : Log :=
  { l with term := term, voted_for := voted_for }

/-- Term of the last entry of the log, 0 for an empty log. -/
def Log.last_term (l : Log) : Nat :=
  (l.entries.getLast?).elim 0 Entry.term

/-- Term of the entry at a given 1-based index, 0 if absent. -/
def Log.term_at (l : Log) (i : Nat) : Nat :=
  ((l.entries.get? (i - 1)).elim 0 Entry.term)

/-- One recorded side effect of a step, in the order the node performed it:
a network send, a durable term/vote write, a log append, the abort of the
proxied requests, or the forwarding of the queued requests. -/
inductive Effect where
  | send (dst : Address) (event : Event) : Effect
  | saveTerm (term : Nat) (voted_for : Option String) : Effect
  | append (term : Nat) (command : Option (List Nat)) : Effect
  | abortProxied (reqs : List (Address × Event)) : Effect
  | forwardQueued (dst : Address) (reqs : List (Address × Event)) : Effect
deriving DecidableEq, Repr

/-- A candidate is campaigning to become a leader (struct `Candidate` in
the source): ticks elapsed since election start, election timeout in ticks,
and votes received (including ourself). -/
structure Candidate where
  election_ticks : Nat
  election_timeout : Nat
  vote_count : Nat
deriving DecidableEq, Repr

/-- Follower role state, per the spec's data model: optional known-leader
address and optional voted-for record for the current term
(`Follower::new(leader, voted_for)` in the source). -/
structure Follower where
  leader : Option String
  voted_for : Option String
deriving DecidableEq, Repr

/-- Construct a follower role (`Follower::new` is called by the source with
a leader and a vote record). -/
def Follower.new (leader : Option String) (voted_for : Option String) : Follower :=
  { leader := leader, voted_for := voted_for }

/-- Leader role state, per the spec's data model: per-peer replication
progress (last index acknowledged by each peer) and the index last appended
by this leader. -/
structure Leader where
  progress : List (String × Nat)
  last_index : Nat
deriving DecidableEq, Repr

/-- Modelled from the spec: `Leader::new(peers, last_index)` is called by
`become_leader` but its code is not under src/; it initializes per-peer
progress (no acknowledgements yet) and records the last appended index. -/
def Leader.new (peers : List String) (last_index : Nat) : Leader :=
  { progress := peers.map (fun p => (p, 0)), last_index := last_index }

/-- The node context shared by every role (`RoleNode<R>` in the code, not
under src/; fields per the spec's data model): node id, peer set, current
term, the log handle, the queued-request buffer, the in-flight proxied
requests, and the ordered trace of side effects performed so far. -/
structure RoleNode (R : Type) where
  id : String
  peers : List String
  term : Nat
  log : Log
  queued_reqs : List (Address × Event)
  proxied_reqs : List (Address × Event)
  outbox : List Effect
  role : R
deriving Repr

/-- Modelled from the spec: quorum is `floor(cluster_size / 2) + 1`,
computed from the node's own id plus its peer set (`quorum()` is not under
src/). -/
def RoleNode.quorum (self : RoleNode R) : Nat :=
  (self.peers.length + 1) / 2 + 1

/-- Modelled from the spec: `send` emits an outbound message; its code is
not under src/. The model records the send in the effect trace. -/
def RoleNode.send (self : RoleNode R) (dst : Address) (event : Event) : RoleNode R :=
  { self with outbox := self.outbox ++ [Effect.send dst event] }

/-- Modelled from the spec: `become_role` constructs the new role from the
shared context plus new role-specific state; its code is not under src/.
(The term update and persistence are done by the caller in the source,
before this call.) -/
def RoleNode.become_role (self : RoleNode R) (role : S) : RoleNode S :=
  { id := self.id
    peers := self.peers
    term := self.term
    log := self.log
    queued_reqs := self.queued_reqs
    proxied_reqs := self.proxied_reqs
    outbox := self.outbox
    role := role }

/-- Modelled from the spec: `abort_proxied` resolves every in-flight
proxied request with a local error to the original requester rather than
silently dropping it; its code is not under src/. The model records the
aborted requests in the effect trace and clears the buffer. -/
def RoleNode.abort_proxied (self : RoleNode R) : RoleNode R :=
  { self with
    proxied_reqs := []
    outbox := self.outbox ++ [Effect.abortProxied self.proxied_reqs] }

/-- Modelled from the spec: `forward_queued` forwards the queued requests
to the given address (the newly discovered leader); its code is not under
src/. The model records the forward in the effect trace and clears the
buffer. -/
def RoleNode.forward_queued (self : RoleNode R) (dst : Address) : RoleNode R :=
  { self with
    queued_reqs := []
    outbox := self.outbox ++ [Effect.forwardQueued dst self.queued_reqs] }

/-- Modelled from the spec: `append` appends an entry carrying the node's
current term and the (possibly absent) command to the log; its code is not
under src/. The model records the append in the effect trace. -/
def RoleNode.append (self : RoleNode R) (command : Option (List Nat)) : RoleNode R :=
  { self with
    log := { self.log with
             entries := self.log.entries ++ [⟨self.term, command⟩]
             last_index := self.log.last_index + 1 }
    outbox := self.outbox ++ [Effect.append self.term command] }

/-- Modelled from the spec: `validate` rejects a message whose term is
lower than the node's current term, or whose structural invariants are
violated (an address shape inconsistent with its origin); a locally
submitted request carries term 0 and is treated as fresh. Its code is not
under src/. -/
def RoleNode.validate (self : RoleNode R) (msg : Message) : Except String Unit :=
  match msg.src_addr with
  | Address.Peers => Except.error "a message cannot arrive from a broadcast source"
  | Address.Local =>
      if msg.term = 0 then Except.ok () else
        Except.error "a local request must carry term 0"
  | Address.Client =>
      if msg.term = 0 then Except.ok () else
        Except.error "a client request must carry term 0"
  | Address.Peer _ =>
      if msg.term < self.term then Except.error "the message term is stale"
      else Except.ok ()

/-- A node in one of the three roles (the `Node` sum type: transitions
consume the old variant and produce a new one). -/
inductive Node where
  | follower (n : RoleNode Follower) : Node
  | candidate (n : RoleNode Candidate) : Node
  | leader (n : RoleNode Leader) : Node

/-- The current term of a node, regardless of role. -/
def Node.term : Node → Nat
  | Node.follower n => n.term
  | Node.candidate n => n.term
  | Node.leader n => n.term

/-- Whether a node is in the candidate role. -/
def Node.isCandidate : Node → Bool
  | Node.candidate _ => true
  | _ => false

/-- Whether a node is in the leader role. -/
def Node.isLeader : Node → Bool
  | Node.leader _ => true
  | _ => false

/-- Modelled from the spec: when a follower sees a higher term from a
specific peer it persists the new term and records that peer as the known
leader (forwarding anything mid-flight to it) before interpreting the
event; the follower code is not under src/. -/
def RoleNode.follower_catch_up (self : RoleNode Follower) (term : Nat)
    (leader : String) : RoleNode Follower :=
  let self := { self with
                term := term
                log := self.log.save_term term none
                outbox := self.outbox ++ [Effect.saveTerm term none] }
  let self := { self with role := Follower.new (some leader) none }
  self.forward_queued (Address.Peer leader)

/-- Modelled from the spec: whether a candidate's log is at least as up to
date as ours, compared by last-entry term then index. -/
def Log.up_to_date (l : Log) (last_log_index last_log_term : Nat) : Bool :=
  l.last_term < last_log_term ||
    (last_log_term = l.last_term && l.last_index ≤ last_log_index)

/-- Modelled from the spec: the follower's event dispatch (the Follower
role body is not under src/). A `SolicitVote` is granted only if the node
has not already voted for a different candidate this term and the
candidate's log is at least as up to date; the vote is persisted before the
reply is sent. A `Heartbeat` records the sender as leader and advances the
commit point. `ReplicateEntries` applies log matching: truncate any
conflicting suffix, append, and reply `AcceptEntries` or `RejectEntries`.
Other events are ignored by a follower. -/
def Follower.stepEvent (self : RoleNode Follower) (msg : Message) :
    Except String Node :=
  match msg.event with
  | Event.SolicitVote last_log_index last_log_term =>
      match msg.src_addr with
      | Address.Peer src =>
          let mayVote := match self.role.voted_for with
            | none => true
            | some v => v = src
          if mayVote && self.log.up_to_date last_log_index last_log_term then
            let self := { self with
              log := self.log.save_term self.term (some src)
              outbox := self.outbox ++ [Effect.saveTerm self.term (some src)]
              role := { self.role with voted_for := some src } }
            Except.ok (Node.follower (self.send (Address.Peer src) Event.GrantVote))
          else Except.ok (Node.follower self)
      | _ => Except.ok (Node.follower self)
  | Event.Heartbeat commit_index commit_term =>
      match msg.src_addr with
      | Address.Peer src =>
          let ci := min commit_index self.log.last_index
          let self := { self with
            role := { self.role with leader := some src }
            log := { self.log with commit_index := ci, commit_term := commit_term } }
          Except.ok (Node.follower self)
      | _ => Except.ok (Node.follower self)
  | Event.ReplicateEntries base_index base_term entries =>
      match msg.src_addr with
      | Address.Peer src =>
          if base_index = 0 || self.log.term_at base_index = base_term then
            let newEntries := self.log.entries.take base_index ++ entries
            let self := { self with
              log := { self.log with
                       entries := newEntries
                       last_index := base_index + entries.length } }
            Except.ok (Node.follower
              (self.send (Address.Peer src)
                (Event.AcceptEntries self.log.last_index)))
          else
            Except.ok (Node.follower
              (self.send (Address.Peer src) Event.RejectEntries))
      | _ => Except.ok (Node.follower self)
  | _ => Except.ok (Node.follower self)

/-- Modelled from the spec: the Follower's `step` (not under src/):
validate and drop on failure; on a higher term from a specific peer,
persist the term and record the peer as leader before the event is
interpreted; then dispatch on the event. -/
def Follower.step (self : RoleNode Follower) (msg : Message) :
    Except String Node :=
  match self.validate msg with
  | Except.error _ => Except.ok (Node.follower self)
  | Except.ok _ =>
      if self.term < msg.term then
        match msg.src_addr with
        | Address.Peer src =>
            Follower.stepEvent (self.follower_catch_up msg.term src) msg
        | _ => Follower.stepEvent self msg
      else Follower.stepEvent self msg

/-- Modelled from the spec: a leader observing a higher term from a peer
takes the same term-update-and-Follower-conversion path as in the generic
pre-processing: persist the new term, become a follower recording that
peer, abort any proxied request, and forward the queued requests to the
peer (the Leader role body is not under src/). -/
def RoleNode.leader_become_follower (self : RoleNode Leader) (term : Nat)
    (leader : String) : RoleNode Follower :=
  let self := { self with
                term := term
                log := self.log.save_term term none
                outbox := self.outbox ++ [Effect.saveTerm term none] }
  let node := self.become_role (Follower.new (some leader) none)
  let node := node.abort_proxied
  node.forward_queued (Address.Peer leader)

/-- Update a peer's recorded progress. -/
def Leader.setProgress (l : Leader) (peer : String) (idx : Nat) : Leader :=
  { l with
    progress := l.progress.map (fun p => if p.1 = peer then (p.1, idx) else p) }

/-- Insert into a list kept sorted in descending order. -/
def insertDesc (x : Nat) : List Nat → List Nat
  | [] => [x]
  | y :: ys => if y ≤ x then x :: y :: ys else y :: insertDesc x ys

/-- Sort a list of naturals in descending order. -/
def sortDesc : List Nat → List Nat
  | [] => []
  | x :: xs => insertDesc x (sortDesc xs)

/-- Modelled from the spec: the highest index acknowledged by a quorum of
nodes (including the leader itself): the quorum-th largest among the
leader's own last index and each peer's acknowledged index. -/
def RoleNode.quorumIndex (self : RoleNode Leader) : Nat :=
  let acked := sortDesc (self.log.last_index :: self.role.progress.map Prod.snd)
  (acked.get? (self.quorum - 1)).getD 0

/-- Modelled from the spec: the leader's event dispatch (the Leader role
body is not under src/). On `AcceptEntries` it advances that peer's
progress and recomputes the commit index as the highest index acknowledged
by a quorum at the leader's current term; on `RejectEntries` it backs off
the peer's expected previous index and retries; other events are
unexpected or periodic-tick driven and leave the role unchanged. -/
def Leader.stepEvent (self : RoleNode Leader) (msg : Message) :
    Except String Node :=
  match msg.event with
  | Event.AcceptEntries last_index =>
      match msg.src_addr with
      | Address.Peer src =>
          let self := { self with
            role := self.role.setProgress src last_index }
          let ci := self.quorumIndex
          let self :=
            if self.log.commit_index < ci && self.log.term_at ci = self.term then
              { self with log := { self.log with
                  commit_index := ci
                  commit_term := self.term } }
            else self
          Except.ok (Node.leader self)
      | _ => Except.ok (Node.leader self)
  | Event.RejectEntries =>
      match msg.src_addr with
      | Address.Peer src =>
          let prev := (((self.role.progress.find? (fun p => p.1 = src)).map
            Prod.snd).getD 0) - 1
          let self := { self with role := self.role.setProgress src prev }
          Except.ok (Node.leader
            (self.send (Address.Peer src)
              (Event.ReplicateEntries prev (self.log.term_at prev)
                (self.log.entries.drop prev))))
      | _ => Except.ok (Node.leader self)
  | _ => Except.ok (Node.leader self)

/-- Modelled from the spec: the Leader's `step` (not under src/): validate
and drop on failure; a higher term observed from any peer message triggers
the term-update-and-Follower-conversion path and the message is
re-processed by the new follower; otherwise dispatch on the event. -/
def Leader.step (self : RoleNode Leader) (msg : Message) :
    Except String Node :=
  match self.validate msg with
  | Except.error _ => Except.ok (Node.leader self)
  | Except.ok _ =>
      if self.term < msg.term then
        match msg.src_addr with
        | Address.Peer src =>
            Follower.step (self.leader_become_follower msg.term src) msg
        | _ => Leader.stepEvent self msg
      else Leader.stepEvent self msg

/-- Dispatch of `Node::step` restricted to the two roles reachable during
the queued-request replay (the replay starts at a leader and only the
follower or leader roles can result); a candidate input is returned
unchanged. Proved below to agree with `Node.step` on every non-candidate
node. -/
def Node.stepLF (n : Node) (msg : Message) : Except String Node :=
  match n with
  | Node.follower f => Follower.step f msg
  | Node.leader l => Leader.step l msg
  | Node.candidate c => Except.ok (Node.candidate c)

/-- Transition to follower role (`become_follower` in the source): log the
discovery, set and persist the new term, become a follower recording the
leader, abort any proxied request, and forward the queued requests to the
leader. -/
def RoleNode.become_follower (self : RoleNode Candidate) (term : Nat)
    (leader : String) : RoleNode Follower :=
  let self := { self with term := term }
  let self := { self with
                log := self.log.save_term term none
                outbox := self.outbox ++ [Effect.saveTerm term none] }
  let node := self.become_role (Follower.new (some leader) none)
  let node := node.abort_proxied
  node.forward_queued (Address.Peer leader)

/-- Transition to leader role (`become_leader` in the source): become a
leader initialized with the peer set and the log's last index, broadcast a
heartbeat carrying the current commit index/term, append a no-op entry,
then abort any proxied request. -/
def RoleNode.become_leader (self : RoleNode Candidate) : RoleNode Leader :=
  let peers := self.peers
  let last_index := self.log.last_index
  let node := self.become_role (Leader.new peers last_index)
  let node := node.send Address.Peers
    (Event.Heartbeat node.log.commit_index node.log.commit_term)
  let node := node.append none
  node.abort_proxied

/-- The event dispatch of the candidate's `step` (the `match msg.event`
block in the source): a heartbeat from a peer converts to follower and
re-processes; a granted vote increments the vote count and, on reaching
quorum, drains the queued requests, becomes leader and replays them, each
tagged with term 0 and a local destination; competing vote solicitations
are ignored; replication events are unexpected and leave the role
unchanged. -/
def Candidate.stepEvent (self : RoleNode Candidate) (msg : Message) :
    Except String Node :=
  match msg.event with
  | Event.Heartbeat _ _ =>
      match msg.src_addr with
      | Address.Peer src =>
          Follower.step (self.become_follower msg.term src) msg
      | _ => Except.ok (Node.candidate self)
  | Event.GrantVote =>
      let self := { self with
        role := { self.role with vote_count := self.role.vote_count + 1 } }
      if self.quorum ≤ self.role.vote_count then
        let queued := self.queued_reqs
        let self := { self with queued_reqs := [] }
        let node : Node := Node.leader self.become_leader
        queued.foldlM
          (fun n p => Node.stepLF n
            { term := 0, src_addr := p.1, dst_addr := Address.Local,
              event := p.2 })
          node
      else Except.ok (Node.candidate self)
  | Event.SolicitVote _ _ => Except.ok (Node.candidate self)
  | _ => Except.ok (Node.candidate self)

/-- Processes a message (`step` in the source): validate, dropping an
invalid message with the node unchanged; on a higher term from a specific
peer, become follower and re-dispatch the message to the new role; then
dispatch on the event. -/
def Candidate.step (self : RoleNode Candidate) (msg : Message) :
    Except String Node :=
  match self.validate msg with
  | Except.error _ => Except.ok (Node.candidate self)
  | Except.ok _ =>
      match msg.src_addr with
      | Address.Peer src =>
          if self.term < msg.term then
            Follower.step (self.become_follower msg.term src) msg
          else Candidate.stepEvent self msg
      | _ => Candidate.stepEvent self msg

/-- `Node::step`: dispatch to the current role's step. -/
def Node.step (n : Node) (msg : Message) : Except String Node :=
  match n with
  | Node.follower f => Follower.step f msg
  | Node.candidate c => Candidate.step c msg
  | Node.leader l => Leader.step l msg

/-! ## Storage: scan ranges and ordered iteration (`src/storage/mod.rs`) -/

/-- A byte-string key (`KeyType`), one natural per byte. -/
abbrev Key := List Nat

/-- A byte-string value (`ValueType`). -/
abbrev Value := List Nat

/-- A range bound (`std::ops::Bound`): inclusive, exclusive, or unbounded. -/
inductive Bound (α : Type) where
  | Included (v : α) : Bound α
  | Excluded (v : α) : Bound α
  | Unbounded : Bound α
deriving DecidableEq, Repr

/-- A scan range wrapper (struct `Range` in the source; the source's field
`end` is a Lean keyword, rendered `stop` here). -/
structure Range where
  start : Bound Key
  stop : Bound Key
deriving DecidableEq, Repr

/-- `Range::from`, translated from the source: it copies the start and end
bounds of the input range variant by variant (`from` is a Lean keyword,
rendered `fromBounds`; the input range is represented by its two bounds,
which is what the source reads of it via `RangeBounds`). -/
def Range.fromBounds (start : Bound Key) (stop : Bound Key) : Range :=
  { start := match start with
      | Bound.Included v => Bound.Included v
      | Bound.Excluded v => Bound.Excluded v
      | Bound.Unbounded => Bound.Unbounded
    stop := match stop with
      | Bound.Included v => Bound.Included v
      | Bound.Excluded v => Bound.Excluded v
      | Bound.Unbounded => Bound.Unbounded }

/-- `RangeBounds::start_bound` for `Range`, translated from the source. -/
def Range.start_bound (r : Range) : Bound Key :=
  match r.start with
  | Bound.Included v => Bound.Included v
  | Bound.Excluded v => Bound.Excluded v
  | Bound.Unbounded => Bound.Unbounded

/-- `RangeBounds::end_bound` for `Range`, translated from the source. -/
def Range.end_bound (r : Range) : Bound Key :=
  match r.stop with
  | Bound.Included v => Bound.Included v
  | Bound.Excluded v => Bound.Excluded v
  | Bound.Unbounded => Bound.Unbounded

/-- Strict byte-lexicographic order on keys. -/
def keyLt : Key → Key → Bool
  | [], [] => false
  | [], _ :: _ => true
  | _ :: _, [] => false
  | a :: ks, b :: ls => a < b || (a = b && keyLt ks ls)

/-- Non-strict byte-lexicographic order on keys. -/
def keyLe (a b : Key) : Bool :=
  keyLt a b || a == b

/-- Whether a key satisfies the start bound of a range. -/
def Bound.satStart (b : Bound Key) (k : Key) : Bool :=
  match b with
  | Bound.Included v => keyLe v k
  | Bound.Excluded v => keyLt v k
  | Bound.Unbounded => true

/-- Whether a key satisfies the end bound of a range. -/
def Bound.satEnd (b : Bound Key) (k : Key) : Bool :=
  match b with
  | Bound.Included v => keyLe k v
  | Bound.Excluded v => keyLt k v
  | Bound.Unbounded => true

/-- Whether a range contains a key, read through the range's reported
bounds exactly as a consumer of `RangeBounds` does. -/
def Range.containsKey (r : Range) (k : Key) : Bool :=
  r.start_bound.satStart k && r.end_bound.satEnd k

/-- Modelled from the spec: the `Store` implementations are not under
src/; the store is its ordered contents, a list of key/value pairs in
byte-lexicographic key order. `set_or_insert` upserts, keeping the order. -/
def set_or_insert (items : List (Key × Value)) (k : Key) (v : Value) :
    List (Key × Value) :=
  match items with
  | [] => [(k, v)]
  | (k0, v0) :: rest =>
      if keyLt k k0 then (k, v) :: (k0, v0) :: rest
      else if k == k0 then (k, v) :: rest
      else (k0, v0) :: set_or_insert rest k v

/-- Modelled from the spec: the forward traversal of `scan(range)` — the
in-range pairs of the store, visited front to back. -/
def scanFwd (items : List (Key × Value)) (r : Range) : List (Key × Value) :=
  match items with
  | [] => []
  | kv :: rest =>
      if r.containsKey kv.1 then kv :: scanFwd rest r else scanFwd rest r

/-- Modelled from the spec: the backward traversal of `scan(range)` (the
`DoubleEndedIterator` consumed via `rev()`) — the in-range pairs of the
store, visited back to front. Defined by its own recursion, independently
of the forward traversal. -/
def scanRev (items : List (Key × Value)) (r : Range) : List (Key × Value) :=
  match items with
  | [] => []
  | kv :: rest =>
      scanRev rest r ++ (if r.containsKey kv.1 then [kv] else [])

/-! ## Concrete fixtures used to instantiate the theorems -/

/-- The store contents of the storage test: keys a, b, ba, bb, c. -/
def scanStore : List (Key × Value) :=
  set_or_insert (set_or_insert (set_or_insert (set_or_insert (set_or_insert []
    [97] [1]) [98] [2]) [98, 97] [2, 1]) [98, 98] [2, 2]) [99] [3]

/-- The range [b, bz) of the storage test. -/
def scanRangeBz : Range :=
  Range.fromBounds (Bound.Included [98]) (Bound.Excluded [98, 122])

/-- A small concrete log at term 3 with one committed entry. -/
def testLog : Log :=
  { entries := [⟨1, some [7]⟩]
    last_index := 1
    commit_index := 1
    commit_term := 1
    term := 3
    voted_for := some "a" }

/-- A concrete campaigning candidate: a 5-node cluster (quorum 3), term 3,
one self-vote, two queued requests and one proxied request. -/
def testCand : RoleNode Candidate :=
  { id := "a"
    peers := ["b", "c", "d", "e"]
    term := 3
    log := testLog
    queued_reqs := [(Address.Client, Event.SolicitVote 1 1),
                    (Address.Client, Event.RejectEntries)]
    proxied_reqs := [(Address.Client, Event.GrantVote)]
    outbox := []
    role := { election_ticks := 0, election_timeout := 5, vote_count := 1 } }

/-- The same candidate one granted vote later (2 of quorum 3). -/
def testCand2 : RoleNode Candidate :=
  { testCand with role := { testCand.role with vote_count := 2 } }

/-- A vote granted at a term above the candidate's. -/
def msgHigh : Message :=
  ⟨5, Address.Peer "b", Address.Peer "a", Event.GrantVote⟩

/-- A vote granted at the candidate's own term. -/
def msgGrant : Message :=
  ⟨3, Address.Peer "b", Address.Peer "a", Event.GrantVote⟩

/-- A heartbeat from a peer at the candidate's own term. -/
def msgBeat : Message :=
  ⟨3, Address.Peer "b", Address.Peer "a", Event.Heartbeat 1 1⟩

/-- A stale message: term 1 against the candidate's term 3. -/
def msgStale : Message :=
  ⟨1, Address.Peer "b", Address.Peer "a", Event.GrantVote⟩

/-- A competing vote solicitation at the candidate's own term. -/
def msgSolicit : Message :=
  ⟨3, Address.Peer "b", Address.Peer "a", Event.SolicitVote 1 1⟩

/-! ## Helper lemmas about the modelled follower and leader steps -/

/-- The follower's event dispatch always returns a follower node and never
changes the term. -/
theorem follower_stepEvent_ok (self : RoleNode Follower) (msg : Message) :
    ∃ f : RoleNode Follower,
      Follower.stepEvent self msg = Except.ok (Node.follower f)
        ∧ f.term = self.term := by
  obtain ⟨t, src, dst, ev⟩ := msg
  cases ev <;> cases src <;> dsimp only [Follower.stepEvent] <;>
    first
      | exact ⟨_, rfl, rfl⟩
      | (split <;> exact ⟨_, rfl, rfl⟩)

/-- The follower's step always returns a follower node, with a term at
least the old one. -/
theorem follower_step_ok (self : RoleNode Follower) (msg : Message) :
    ∃ f : RoleNode Follower,
      Follower.step self msg = Except.ok (Node.follower f)
        ∧ self.term ≤ f.term := by
  unfold Follower.step
  cases hv : self.validate msg with
  | error e => exact ⟨self, rfl, le_refl _⟩
  | ok u =>
    dsimp only
    split
    · rename_i hlt
      cases hsrc : msg.src_addr with
      | Peer src =>
          obtain ⟨f, hf, ht⟩ :=
            follower_stepEvent_ok (self.follower_catch_up msg.term src) msg
          refine ⟨f, hf, ?_⟩
          rw [ht]
          show self.term ≤ msg.term
          exact le_of_lt hlt
      | Local =>
          obtain ⟨f, hf, ht⟩ := follower_stepEvent_ok self msg
          exact ⟨f, hf, le_of_eq ht.symm⟩
      | Client =>
          obtain ⟨f, hf, ht⟩ := follower_stepEvent_ok self msg
          exact ⟨f, hf, le_of_eq ht.symm⟩
      | Peers =>
          obtain ⟨f, hf, ht⟩ := follower_stepEvent_ok self msg
          exact ⟨f, hf, le_of_eq ht.symm⟩
    · obtain ⟨f, hf, ht⟩ := follower_stepEvent_ok self msg
      exact ⟨f, hf, le_of_eq ht.symm⟩

/-- The leader's event dispatch always returns a leader node and never
changes the term. -/
theorem leader_stepEvent_ok (self : RoleNode Leader) (msg : Message) :
    ∃ l : RoleNode Leader,
      Leader.stepEvent self msg = Except.ok (Node.leader l)
        ∧ l.term = self.term := by
  obtain ⟨t, src, dst, ev⟩ := msg
  cases ev <;> cases src <;> dsimp only [Leader.stepEvent] <;>
    first
      | exact ⟨_, rfl, rfl⟩
      | (refine ⟨_, rfl, ?_⟩; split <;> rfl)

/-- The leader's step always succeeds, never lowers the term, never yields
a candidate, and stays a leader at the same term when the message's term
does not exceed its own. -/
theorem leader_step_ok (self : RoleNode Leader) (msg : Message) :
    ∃ n : Node,
      Leader.step self msg = Except.ok n
        ∧ self.term ≤ n.term
        ∧ n.isCandidate = false
        ∧ (msg.term ≤ self.term →
            ∃ l : RoleNode Leader, n = Node.leader l ∧ l.term = self.term) := by
  unfold Leader.step
  cases hv : self.validate msg with
  | error e =>
      exact ⟨Node.leader self, rfl, le_refl _, rfl, fun _ => ⟨self, rfl, rfl⟩⟩
  | ok u =>
    dsimp only
    split
    · rename_i hlt
      cases hsrc : msg.src_addr with
      | Peer src =>
          obtain ⟨f, hf, ht⟩ :=
            follower_step_ok (self.leader_become_follower msg.term src) msg
          refine ⟨Node.follower f, hf, ?_, rfl, ?_⟩
          · calc self.term ≤ msg.term := le_of_lt hlt
              _ = (self.leader_become_follower msg.term src).term := rfl
              _ ≤ f.term := ht
          · intro hle
            exact absurd hlt (not_lt_of_le hle)
      | Local =>
          obtain ⟨l, hl, ht⟩ := leader_stepEvent_ok self msg
          exact ⟨Node.leader l, hl, le_of_eq ht.symm, rfl,
            fun _ => ⟨l, rfl, ht⟩⟩
      | Client =>
          obtain ⟨l, hl, ht⟩ := leader_stepEvent_ok self msg
          exact ⟨Node.leader l, hl, le_of_eq ht.symm, rfl,
            fun _ => ⟨l, rfl, ht⟩⟩
      | Peers =>
          obtain ⟨l, hl, ht⟩ := leader_stepEvent_ok self msg
          exact ⟨Node.leader l, hl, le_of_eq ht.symm, rfl,
            fun _ => ⟨l, rfl, ht⟩⟩
    · obtain ⟨l, hl, ht⟩ := leader_stepEvent_ok self msg
      exact ⟨Node.leader l, hl, le_of_eq ht.symm, rfl, fun _ => ⟨l, rfl, ht⟩⟩

/-- `Node.stepLF` always succeeds, never lowers the term, and never turns a
non-candidate into a candidate. -/
theorem stepLF_ok (n : Node) (msg : Message) :
    ∃ n' : Node,
      Node.stepLF n msg = Except.ok n'
        ∧ n.term ≤ n'.term
        ∧ (n.isCandidate = false → n'.isCandidate = false) := by
  cases n with
  | follower f =>
      obtain ⟨f', hf, ht⟩ := follower_step_ok f msg
      exact ⟨Node.follower f', hf, ht, fun _ => rfl⟩
  | candidate c => exact ⟨Node.candidate c, rfl, le_refl _, fun h => h⟩
  | leader l =>
      obtain ⟨n', hl, ht, hc, _⟩ := leader_step_ok l msg
      exact ⟨n', hl, ht, fun _ => hc⟩

/-- On every non-candidate node the replay dispatch agrees with the full
`Node.step` dispatch. -/
theorem stepLF_eq_step (n : Node) (msg : Message) (h : n.isCandidate = false) :
    Node.stepLF n msg = Node.step n msg := by
  cases n with
  | follower f => rfl
  | candidate c => simp [Node.isCandidate] at h
  | leader l => rfl

/-- Replaying a list of requests through the replay dispatch, starting from
a non-candidate node, is the same as replaying them through the full
`Node.step` dispatch. -/
theorem foldLF_eq_fold_step (queued : List (Address × Event)) (n : Node)
    (h : n.isCandidate = false) :
    queued.foldlM
        (fun n p => Node.stepLF n
          { term := 0, src_addr := p.1, dst_addr := Address.Local, event := p.2 })
        n
      = queued.foldlM
          (fun n p => Node.step n
            { term := 0, src_addr := p.1, dst_addr := Address.Local, event := p.2 })
          n := by
  induction queued generalizing n with
  | nil => rfl
  | cons p rest ih =>
      obtain ⟨n', hs, _, hc⟩ :=
        stepLF_ok n { term := 0, src_addr := p.1, dst_addr := Address.Local, event := p.2 }
      have hs' := hs
      rw [stepLF_eq_step _ _ h] at hs'
      simp only [List.foldlM, hs, hs']
      show rest.foldlM _ n' = rest.foldlM _ n'
      exact ih n' (hc h)

/-- Replaying any list of requests, each tagged with term 0, over a leader
keeps the node a leader. -/
theorem foldLF_leader (queued : List (Address × Event)) (l : RoleNode Leader) :
    ∃ l' : RoleNode Leader,
      queued.foldlM
          (fun n p => Node.stepLF n
            { term := 0, src_addr := p.1, dst_addr := Address.Local, event := p.2 })
          (Node.leader l)
        = Except.ok (Node.leader l') := by
  induction queued generalizing l with
  | nil => exact ⟨l, rfl⟩
  | cons p rest ih =>
      obtain ⟨n', hs, _, _, hlead⟩ :=
        leader_step_ok l { term := 0, src_addr := p.1, dst_addr := Address.Local, event := p.2 }
      obtain ⟨l1, hn', _⟩ := hlead (Nat.zero_le _)
      obtain ⟨l', hl'⟩ := ih l1
      refine ⟨l', ?_⟩
      have : Node.stepLF (Node.leader l)
          { term := 0, src_addr := p.1, dst_addr := Address.Local, event := p.2 }
            = Except.ok (Node.leader l1) := by
        rw [show Node.stepLF (Node.leader l) = Leader.step l from rfl, hs, hn']
      simp only [List.foldlM, this]
      exact hl'

/-- Replaying a list of requests through the replay dispatch always
succeeds and never lowers the term. -/
theorem foldLF_term (queued : List (Address × Event)) (n : Node) :
    ∃ n' : Node,
      queued.foldlM
          (fun n p => Node.stepLF n
            { term := 0, src_addr := p.1, dst_addr := Address.Local, event := p.2 })
          n
        = Except.ok n' ∧ n.term ≤ n'.term := by
  induction queued generalizing n with
  | nil => exact ⟨n, rfl, le_refl _⟩
  | cons p rest ih =>
      obtain ⟨n1, hs, ht, _⟩ :=
        stepLF_ok n { term := 0, src_addr := p.1, dst_addr := Address.Local, event := p.2 }
      obtain ⟨n', hfold, ht'⟩ := ih n1
      refine ⟨n', ?_, le_trans ht ht'⟩
      simp only [List.foldlM, hs]
      exact hfold

/-- The candidate's event dispatch never lowers the term, provided any
peer-sourced message carries a term at least the node's own (which
validation guarantees on every path that reaches the dispatch). -/
theorem candidate_stepEvent_term (self : RoleNode Candidate) (msg : Message)
    (n' : Node)
    (hp : ∀ s, msg.src_addr = Address.Peer s → self.term ≤ msg.term)
    (h : Candidate.stepEvent self msg = Except.ok n') :
    self.term ≤ n'.term := by
  obtain ⟨t, src, dst, ev⟩ := msg
  cases ev with
  | Heartbeat ci ct =>
      cases src with
      | Peer s =>
          dsimp only [Candidate.stepEvent] at h
          obtain ⟨f, hf, ht⟩ := follower_step_ok (self.become_follower t s)
            { term := t, src_addr := Address.Peer s, dst_addr := dst
              event := Event.Heartbeat ci ct }
          rw [hf] at h
          injection h with h
          subst h
          calc self.term ≤ t := hp s rfl
            _ = (self.become_follower t s).term := rfl
            _ ≤ f.term := ht
      | Local => dsimp only [Candidate.stepEvent] at h; injection h with h; subst h; exact le_refl _
      | Client => dsimp only [Candidate.stepEvent] at h; injection h with h; subst h; exact le_refl _
      | Peers => dsimp only [Candidate.stepEvent] at h; injection h with h; subst h; exact le_refl _
  | GrantVote =>
      dsimp only [Candidate.stepEvent] at h
      split at h
      · obtain ⟨n2, hfold, ht⟩ := foldLF_term _ _
        rw [hfold] at h
        injection h with h
        subst h
        exact ht
      · injection h with h
        subst h
        exact le_refl _
  | SolicitVote i tm =>
      dsimp only [Candidate.stepEvent] at h; injection h with h; subst h; exact le_refl _
  | ReplicateEntries bi bt es =>
      dsimp only [Candidate.stepEvent] at h; injection h with h; subst h; exact le_refl _
  | AcceptEntries li =>
      dsimp only [Candidate.stepEvent] at h; injection h with h; subst h; exact le_refl _
  | RejectEntries =>
      dsimp only [Candidate.stepEvent] at h; injection h with h; subst h; exact le_refl _

/-- A message from a specific peer that passes validation carries a term at
least the node's own. -/
theorem validate_peer_le (self : RoleNode R) (msg : Message) (s : String)
    (hsrc : msg.src_addr = Address.Peer s)
    (hv : self.validate msg = Except.ok ()) :
    self.term ≤ msg.term := by
  unfold RoleNode.validate at hv
  rw [hsrc] at hv
  by_cases hlt : msg.term < self.term
  · rw [if_pos hlt] at hv
    exact Except.noConfusion hv
  · exact le_of_not_lt hlt

/-- A validated message whose term does not exceed the candidate's own is
handled by the event dispatch: no follower conversion happens first. -/
theorem step_eq_stepEvent (self : RoleNode Candidate) (msg : Message)
    (hval : self.validate msg = Except.ok ())
    (ht : msg.term ≤ self.term) :
    Candidate.step self msg = Candidate.stepEvent self msg := by
  unfold Candidate.step
  rw [hval]
  cases hsrc : msg.src_addr with
  | Peer s => dsimp only; rw [if_neg (not_lt_of_le ht)]
  | Local => rfl
  | Client => rfl
  | Peers => rfl

/-! ## Claim theorems -/

/-- Claim C1: for every message whose term is strictly greater than the
candidate's current term and whose source is a specific peer,
`Candidate.step` first persists the new term, transitions the node to
follower recording that peer as the known leader, and then re-dispatches
the same message to the new follower role, so the message's event is never
interpreted while the node is at the stale term. -/
theorem claim_C1_higher_term_from_peer
    (self : RoleNode Candidate) (msg : Message) (src : String)
    (hval : self.validate msg = Except.ok ())
    (hsrc : msg.src_addr = Address.Peer src)
    (ht : self.term < msg.term) :
    Candidate.step self msg
        = Follower.step (self.become_follower msg.term src) msg
      ∧ (self.become_follower msg.term src).term = msg.term
      ∧ (self.become_follower msg.term src).log.term = msg.term
      ∧ (self.become_follower msg.term src).role = Follower.new (some src) none
      ∧ (self.become_follower msg.term src).outbox
          = self.outbox ++
              [Effect.saveTerm msg.term none,
               Effect.abortProxied self.proxied_reqs,
               Effect.forwardQueued (Address.Peer src) self.queued_reqs] := by
  refine ⟨?_, rfl, rfl, rfl, ?_⟩
  · unfold Candidate.step
    rw [hval]
    dsimp only
    rw [hsrc]
    dsimp only
    rw [if_pos ht]
  · show ((self.outbox ++ [_]) ++ [_]) ++ [_] = _
    simp [RoleNode.become_role, RoleNode.abort_proxied, RoleNode.forward_queued]

/-- Witness for C1 at a concrete candidate and message: the validated
higher-term vote from peer b makes the node persist term 5, follow b, and
re-dispatch. -/
theorem claim_C1_higher_term_from_peer_witness :
    testCand.validate msgHigh = Except.ok ()
      ∧ msgHigh.src_addr = Address.Peer "b"
      ∧ testCand.term < msgHigh.term
      ∧ Candidate.step testCand msgHigh
          = Follower.step (testCand.become_follower msgHigh.term "b") msgHigh
      ∧ (testCand.become_follower msgHigh.term "b").term = msgHigh.term
      ∧ (testCand.become_follower msgHigh.term "b").role
          = Follower.new (some "b") none :=
  ⟨rfl, rfl, by decide,
    (claim_C1_higher_term_from_peer testCand msgHigh "b" rfl rfl (by decide)).1,
    (claim_C1_higher_term_from_peer testCand msgHigh "b" rfl rfl (by decide)).2.1,
    (claim_C1_higher_term_from_peer testCand msgHigh "b" rfl rfl (by decide)).2.2.2.1⟩

/-- Claim C5: a heartbeat from a specific peer (term not below the node's
own, enforced by validation) converts the candidate to a follower
recording that peer as leader, persists the message's term, aborts any
proxied request, forwards the queued requests to that peer, and
re-processes the same heartbeat under the new follower role. -/
theorem claim_C5_heartbeat_converts_to_follower
    (self : RoleNode Candidate) (msg : Message) (ci ct : Nat) (src : String)
    (hval : self.validate msg = Except.ok ())
    (hev : msg.event = Event.Heartbeat ci ct)
    (hsrc : msg.src_addr = Address.Peer src) :
    Candidate.step self msg
        = Follower.step (self.become_follower msg.term src) msg
      ∧ (self.become_follower msg.term src).role = Follower.new (some src) none
      ∧ (self.become_follower msg.term src).term = msg.term
      ∧ (self.become_follower msg.term src).log.term = msg.term
      ∧ (self.become_follower msg.term src).proxied_reqs = []
      ∧ (self.become_follower msg.term src).queued_reqs = []
      ∧ (self.become_follower msg.term src).outbox
          = self.outbox ++
              [Effect.saveTerm msg.term none,
               Effect.abortProxied self.proxied_reqs,
               Effect.forwardQueued (Address.Peer src) self.queued_reqs] := by
  refine ⟨?_, rfl, rfl, rfl, rfl, rfl, ?_⟩
  · unfold Candidate.step
    rw [hval]
    dsimp only
    rw [hsrc]
    dsimp only
    by_cases hlt : self.term < msg.term
    · rw [if_pos hlt]
    · rw [if_neg hlt]
      unfold Candidate.stepEvent
      rw [hev]
      dsimp only
      rw [hsrc]
  · show ((self.outbox ++ [_]) ++ [_]) ++ [_] = _
    simp [RoleNode.become_role, RoleNode.abort_proxied, RoleNode.forward_queued]

/-- Witness for C5 at a concrete candidate: the heartbeat from peer b at
the candidate's own term converts it to a follower of b with the buffers
resolved. -/
theorem claim_C5_heartbeat_converts_to_follower_witness :
    testCand.validate msgBeat = Except.ok ()
      ∧ msgBeat.event = Event.Heartbeat 1 1
      ∧ msgBeat.src_addr = Address.Peer "b"
      ∧ Candidate.step testCand msgBeat
          = Follower.step (testCand.become_follower msgBeat.term "b") msgBeat
      ∧ (testCand.become_follower msgBeat.term "b").role
          = Follower.new (some "b") none
      ∧ (testCand.become_follower msgBeat.term "b").queued_reqs = [] :=
  ⟨rfl, rfl, rfl,
    (claim_C5_heartbeat_converts_to_follower testCand msgBeat 1 1 "b" rfl rfl rfl).1,
    (claim_C5_heartbeat_converts_to_follower testCand msgBeat 1 1 "b" rfl rfl rfl).2.1,
    (claim_C5_heartbeat_converts_to_follower testCand msgBeat 1 1 "b" rfl rfl rfl).2.2.2.2.2.1⟩

/-- Claim C6: a message that fails validation is not an error of the step:
the candidate logs and drops it and the step returns the node completely
unchanged, still in the candidate role. -/
theorem claim_C6_invalid_message_dropped
    (self : RoleNode Candidate) (msg : Message) (e : String)
    (h : self.validate msg = Except.error e) :
    Candidate.step self msg = Except.ok (Node.candidate self) := by
  unfold Candidate.step
  rw [h]

/-- Witness for C6 at a concrete candidate: a stale-term vote (term 1
against term 3) is rejected by validation and dropped with the node
unchanged. -/
theorem claim_C6_invalid_message_dropped_witness :
    testCand.validate msgStale = Except.error "the message term is stale"
      ∧ Candidate.step testCand msgStale = Except.ok (Node.candidate testCand) :=
  ⟨rfl, claim_C6_invalid_message_dropped testCand msgStale
    "the message term is stale" rfl⟩

/-- Claim C7: a validated `SolicitVote`, `ReplicateEntries`,
`AcceptEntries` or `RejectEntries` whose term does not exceed the
candidate's own leaves the node entirely unchanged, still a candidate: no
vote granted, no log mutation, vote count, election ticks and timeout
untouched. -/
theorem claim_C7_ignored_events_frame
    (self : RoleNode Candidate) (msg : Message)
    (hval : self.validate msg = Except.ok ())
    (ht : msg.term ≤ self.term)
    (hev : (∃ i t, msg.event = Event.SolicitVote i t)
        ∨ (∃ bi bt es, msg.event = Event.ReplicateEntries bi bt es)
        ∨ (∃ li, msg.event = Event.AcceptEntries li)
        ∨ msg.event = Event.RejectEntries) :
    Candidate.step self msg = Except.ok (Node.candidate self) := by
  rw [step_eq_stepEvent self msg hval ht]
  rcases hev with ⟨i, t, he⟩ | ⟨bi, bt, es, he⟩ | ⟨li, he⟩ | he <;>
    (unfold Candidate.stepEvent; rw [he])

/-- Witness for C7 at a concrete candidate: a competing vote solicitation
at the candidate's own term is ignored and the node is returned unchanged. -/
theorem claim_C7_ignored_events_frame_witness :
    testCand.validate msgSolicit = Except.ok ()
      ∧ msgSolicit.term ≤ testCand.term
      ∧ msgSolicit.event = Event.SolicitVote 1 1
      ∧ Candidate.step testCand msgSolicit = Except.ok (Node.candidate testCand) :=
  ⟨rfl, by decide, rfl,
    claim_C7_ignored_events_frame testCand msgSolicit rfl (by decide)
      (Or.inl ⟨1, 1, rfl⟩)⟩

/-- Claim C2: a validated `GrantVote` whose term does not exceed the
candidate's own increments the vote count by one; below quorum the node
stays a candidate with only that change, and on reaching quorum it drains
the queued-request buffer, transitions to leader, and replays every queued
request through the new leader's step in original arrival order, each
tagged with term 0 and a local destination address. -/
theorem claim_C2_grant_vote_quorum_replay
    (self : RoleNode Candidate) (msg : Message)
    (hval : self.validate msg = Except.ok ())
    (ht : msg.term ≤ self.term)
    (hev : msg.event = Event.GrantVote) :
    (self.role.vote_count + 1 < self.quorum →
        Candidate.step self msg
          = Except.ok (Node.candidate
              { self with role := { self.role with
                  vote_count := self.role.vote_count + 1 } }))
      ∧ (self.quorum ≤ self.role.vote_count + 1 →
          Candidate.step self msg
            = self.queued_reqs.foldlM
                (fun n p => Node.step n
                  { term := 0, src_addr := p.1, dst_addr := Address.Local,
                    event := p.2 })
                (Node.leader (RoleNode.become_leader
                  { self with
                    queued_reqs := []
                    role := { self.role with
                      vote_count := self.role.vote_count + 1 } }))) := by
  rw [step_eq_stepEvent self msg hval ht]
  unfold Candidate.stepEvent
  rw [hev]
  dsimp only
  constructor
  · intro hlt
    split
    · rename_i hq
      exact absurd hq (not_le_of_lt hlt)
    · rfl
  · intro hq
    split
    · exact foldLF_eq_fold_step _ _ rfl
    · rename_i hno
      exact absurd hq hno

/-- Witness for C2 at a concrete candidate with 2 of 3 quorum votes: the
validated vote at the candidate's own term reaches quorum, so the step
equals the replay of the two queued requests through the new leader's
step. -/
theorem claim_C2_grant_vote_quorum_replay_witness :
    testCand2.validate msgGrant = Except.ok ()
      ∧ msgGrant.term ≤ testCand2.term
      ∧ msgGrant.event = Event.GrantVote
      ∧ (testCand2.quorum ≤ testCand2.role.vote_count + 1 →
          Candidate.step testCand2 msgGrant
            = testCand2.queued_reqs.foldlM
                (fun n p => Node.step n
                  { term := 0, src_addr := p.1, dst_addr := Address.Local,
                    event := p.2 })
                (Node.leader (RoleNode.become_leader
                  { testCand2 with
                    queued_reqs := []
                    role := { testCand2.role with
                      vote_count := testCand2.role.vote_count + 1 } }))) :=
  ⟨rfl, by decide, rfl,
    (claim_C2_grant_vote_quorum_replay testCand2 msgGrant rfl (by decide) rfl).2⟩

/-- Claim C3: over every single invocation of `Candidate.step`, the term
never decreases: the returned node's term is at least the term of the node
the step was called on, for every input message. -/
theorem claim_C3_term_monotonic
    (self : RoleNode Candidate) (msg : Message) (n' : Node)
    (h : Candidate.step self msg = Except.ok n') :
    self.term ≤ n'.term := by
  unfold Candidate.step at h
  cases hv : self.validate msg with
  | error e =>
      rw [hv] at h
      dsimp only at h
      injection h with h
      subst h
      exact le_refl _
  | ok u =>
      rw [hv] at h
      dsimp only at h
      cases hsrc : msg.src_addr with
      | Peer s =>
          rw [hsrc] at h
          dsimp only at h
          by_cases hlt : self.term < msg.term
          · rw [if_pos hlt] at h
            obtain ⟨f, hf, ht⟩ :=
              follower_step_ok (self.become_follower msg.term s) msg
            rw [hf] at h
            injection h with h
            subst h
            calc self.term ≤ msg.term := le_of_lt hlt
              _ = (self.become_follower msg.term s).term := rfl
              _ ≤ f.term := ht
          · rw [if_neg hlt] at h
            refine candidate_stepEvent_term self msg n' ?_ h
            intro s' hs'
            exact validate_peer_le self msg s' hs' (by rw [hv])
      | Local =>
          rw [hsrc] at h
          dsimp only at h
          refine candidate_stepEvent_term self msg n' ?_ h
          intro s' hs'
          rw [hsrc] at hs'
          exact Address.noConfusion hs'
      | Client =>
          rw [hsrc] at h
          dsimp only at h
          refine candidate_stepEvent_term self msg n' ?_ h
          intro s' hs'
          rw [hsrc] at hs'
          exact Address.noConfusion hs'
      | Peers =>
          rw [hsrc] at h
          dsimp only at h
          refine candidate_stepEvent_term self msg n' ?_ h
          intro s' hs'
          rw [hsrc] at hs'
          exact Address.noConfusion hs'

/-- Witness for C3 at a concrete candidate and vote message: the step
returns the candidate with one more vote, and the term did not decrease. -/
theorem claim_C3_term_monotonic_witness :
    Candidate.step testCand msgGrant = Except.ok (Node.candidate testCand2)
      ∧ testCand.term ≤ (Node.candidate testCand2).term :=
  ⟨rfl, claim_C3_term_monotonic testCand msgGrant (Node.candidate testCand2) rfl⟩

/-- Claim C4: on winning an election, `become_leader` performs exactly
this sequence on entry: broadcast a heartbeat carrying the log's current
commit index and commit term to all peers, then append a no-op entry, then
abort any proxied request; nothing else is emitted and the shared context
is otherwise carried over unchanged. -/
theorem claim_C4_become_leader_sequence (self : RoleNode Candidate) :
    (self.become_leader).outbox
        = self.outbox ++
            [Effect.send Address.Peers
               (Event.Heartbeat self.log.commit_index self.log.commit_term),
             Effect.append self.term none,
             Effect.abortProxied self.proxied_reqs]
      ∧ (self.become_leader).role = Leader.new self.peers self.log.last_index
      ∧ (self.become_leader).term = self.term
      ∧ (self.become_leader).log.entries
          = self.log.entries ++ [⟨self.term, none⟩]
      ∧ (self.become_leader).proxied_reqs = []
      ∧ (self.become_leader).queued_reqs = self.queued_reqs := by
  refine ⟨?_, rfl, rfl, rfl, rfl, rfl⟩
  show ((self.outbox ++ [_]) ++ [_]) ++ [_] = _
  simp [RoleNode.become_role, RoleNode.send, RoleNode.append,
    RoleNode.abort_proxied]

/-- Claim C9 (implicit): the step increments the vote count for every
validated `GrantVote` at the node's term regardless of the sender, and
nothing records which peers were already counted, so stepping the very
same peer's vote message again increments again and can reach quorum. -/
theorem claim_C9_duplicate_grant_votes
    (self : RoleNode Candidate) (src : String) (dst : Address)
    (hq : self.role.vote_count + 1 < self.quorum) :
    ∃ n1 : RoleNode Candidate,
      Candidate.step self ⟨self.term, Address.Peer src, dst, Event.GrantVote⟩
          = Except.ok (Node.candidate n1)
        ∧ n1.role.vote_count = self.role.vote_count + 1
        ∧ n1.term = self.term
        ∧ (self.quorum ≤ n1.role.vote_count + 1 →
            ∃ l : RoleNode Leader,
              Candidate.step n1
                  ⟨self.term, Address.Peer src, dst, Event.GrantVote⟩
                = Except.ok (Node.leader l)) := by
  have hval : self.validate
      ⟨self.term, Address.Peer src, dst, Event.GrantVote⟩ = Except.ok () := by
    unfold RoleNode.validate
    dsimp only
    rw [if_neg (lt_irrefl self.term)]
  refine ⟨{ self with role := { self.role with
      vote_count := self.role.vote_count + 1 } }, ?_, rfl, rfl, ?_⟩
  · rw [step_eq_stepEvent self _ hval (le_refl _)]
    unfold Candidate.stepEvent
    dsimp only
    split
    · rename_i hge
      exact absurd hge (not_le_of_lt hq)
    · rfl
  · intro hq2
    have hval1 : RoleNode.validate
        { self with role := { self.role with
            vote_count := self.role.vote_count + 1 } }
        ⟨self.term, Address.Peer src, dst, Event.GrantVote⟩ = Except.ok () := by
      unfold RoleNode.validate
      dsimp only
      rw [if_neg (lt_irrefl self.term)]
    rw [step_eq_stepEvent _ _ hval1 (le_refl _)]
    unfold Candidate.stepEvent
    dsimp only
    split
    · exact foldLF_leader _ _
    · rename_i hno
      exact absurd hq2 hno

/-- Witness for C9 at a concrete 5-node candidate (quorum 3, one
self-vote): the same vote message from peer b, stepped twice, reaches
quorum and yields a leader. -/
theorem claim_C9_duplicate_grant_votes_witness :
    testCand.role.vote_count + 1 < testCand.quorum
      ∧ ∃ n1 : RoleNode Candidate,
          Candidate.step testCand
              ⟨testCand.term, Address.Peer "b", Address.Peer "a", Event.GrantVote⟩
            = Except.ok (Node.candidate n1)
          ∧ n1.role.vote_count = testCand.role.vote_count + 1
          ∧ n1.term = testCand.term
          ∧ (testCand.quorum ≤ n1.role.vote_count + 1 →
              ∃ l : RoleNode Leader,
                Candidate.step n1
                    ⟨testCand.term, Address.Peer "b", Address.Peer "a",
                     Event.GrantVote⟩
                  = Except.ok (Node.leader l)) :=
  ⟨by decide,
    claim_C9_duplicate_grant_votes testCand "b" (Address.Peer "a") (by decide)⟩

/-- Claim C8: for every store state and every range, the backward
traversal of `scan(range)` is exactly the reverse of the forward
traversal — same pairs, none gained or lost, no duplicates; in particular,
with keys a, b, ba, bb, c, the forward scan of [b, bz) yields b, ba, bb
and the reversed scan yields bb, ba, b. -/
theorem claim_C8_scan_reversal (items : List (Key × Value)) (r : Range) :
    scanRev items r = (scanFwd items r).reverse
      ∧ scanFwd scanStore scanRangeBz
          = [([98], [2]), ([98, 97], [2, 1]), ([98, 98], [2, 2])]
      ∧ scanRev scanStore scanRangeBz
          = [([98, 98], [2, 2]), ([98, 97], [2, 1]), ([98], [2])] := by
  refine ⟨?_, by decide, by decide⟩
  induction items with
  | nil => rfl
  | cons kv rest ih =>
      by_cases hc : r.containsKey kv.1 <;> simp [scanFwd, scanRev, hc, ih]

/-- Claim C10 (implicit): the range constructed by `Range::from` reports,
via `start_bound` and `end_bound`, bounds of exactly the same variant
holding the same keys as the input range's bounds — a round trip. -/
theorem claim_C10_range_bounds_round_trip (s e : Bound Key) :
    (Range.fromBounds s e).start_bound = s
      ∧ (Range.fromBounds s e).end_bound = e := by
  cases s <;> cases e <;> exact ⟨rfl, rfl⟩

end Gymxdb
